import Mathlib

/-!
Shallow embedding of `src/assembler.py`: the instruction codec of a small
transport-triggered processor model.  Python arbitrary-precision non-negative
integers are modelled as `Nat`; Python `|` is `Nat.lor` and `<<` is
`Nat.shiftLeft`.  Operations that can raise a `TypeError` in Python
(formatting a `None` operand) return `Option`.
-/

namespace Assembler

/-- Unit code constants, verbatim from the module-level assignments. -/
def UNIT_NONE : Nat := 0

def UNIT_STACK_PUSH_POP : Nat := 1

def UNIT_STACK_INDEX : Nat := 2

def UNIT_REGISTER : Nat := 3

def UNIT_ALU_LEFT : Nat := 4

def UNIT_ALU_RIGHT : Nat := 5

def UNIT_ALU_OPERATOR : Nat := 6

def UNIT_ALU_RESULT : Nat := 7

def UNIT_MEMORY_IMMEDIATE : Nat := 8

def UNIT_MEMORY_OPERAND : Nat := 9

def UNIT_PC : Nat := 10

def UNIT_ABS_IMMEDIATE : Nat := 11

def UNIT_ABS_OPERAND : Nat := 12

/-- The fields stored by `Instr.__init__` (`self.sunit`, `self.si`,
`self.dunit`, `self.di`, `self.soperand`, `self.doperand`).  The stored
`self.op` is a value computed deterministically from the other fields, so it
is modelled as the derived function `Instr.op` below. -/
structure Instr where
  sunit : Nat
  si : Nat
  dunit : Nat
  di : Nat
  soperand : Option Nat
  doperand : Option Nat
deriving DecidableEq, Repr

/-- The primary word computed in `Instr.__init__`:
`op = 0; op |= sunit; op |= si << 4; op |= dunit << 16; op |= di << 20`. -/
def Instr.op (i : Instr) : Nat :=
  i.sunit ||| (i.si <<< 4) ||| (i.dunit <<< 16) ||| (i.di <<< 20)

/-- Python `"{:0wx}".format(n)`: lowercase hex digits of `n`, zero-padded on
the left to width `w` (longer when `n` needs more digits; never truncated). -/
def hexPad (w n : Nat) : String :=
  let ds := Nat.toDigits 16 n
  String.mk (List.replicate (w - ds.length) '0' ++ ds)

/-- The sequence of 32-bit words produced by `Instr.hex`: the primary word
`op`, then `soperand` when `sunit` is `UNIT_MEMORY_OPERAND` or
`UNIT_ABS_OPERAND`, then `doperand` when `dunit` is one of those two codes.
Formatting a missing (`None`) operand raises in Python, hence `Option`. -/
def Instr.hexWords (i : Instr) : Option (List Nat) :=
  (if i.sunit = UNIT_MEMORY_OPERAND ∨ i.sunit = UNIT_ABS_OPERAND then
      i.soperand.map (fun x => [x]) else some []).bind
    (fun sExt =>
      (if i.dunit = UNIT_MEMORY_OPERAND ∨ i.dunit = UNIT_ABS_OPERAND then
          i.doperand.map (fun x => [x]) else some []).map
        (fun dExt => i.op :: (sExt ++ dExt)))

/-- The string returned by `Instr.hex`: each word as 8 lowercase hex digits,
words separated by single spaces, in the append order of the source. -/
def Instr.hex (i : Instr) : Option String :=
  i.hexWords.map (fun ws => String.intercalate " " (ws.map (hexPad 8)))

/-- The destination clause built by the first `if/elif` chain of `Instr.asm`
(the `dunit == UNIT_NONE` early return is handled in `Instr.asm` itself).
A `dunit` with no branch leaves `asm` equal to the empty string. -/
def destString (dunit di : Nat) (doperand : Option Nat) : Option String :=
  if dunit = UNIT_STACK_PUSH_POP then some "PUSH "
  else if dunit = UNIT_STACK_INDEX then some ("S" ++ hexPad 6 di ++ " := ")
  else if dunit = UNIT_REGISTER then some ("R" ++ hexPad 2 di ++ " := ")
  else if dunit = UNIT_ALU_RIGHT then some "ALU:RIGHT := "
  else if dunit = UNIT_ALU_LEFT then some "ALU:LEFT := "
  else if dunit = UNIT_ALU_OPERATOR then some "ALU:OPERATOR := "
  else if dunit = UNIT_MEMORY_IMMEDIATE then
    some ("*(" ++ hexPad 6 di ++ ") := ")
  else if dunit = UNIT_MEMORY_OPERAND then
    doperand.map (fun x => "*(" ++ hexPad 8 x ++ ") := ")
  else if dunit = UNIT_PC then some "JMP "
  else some ""

/-- The source clause appended by the second `if/elif` chain of `Instr.asm`.
A `sunit` with no branch appends nothing. -/
def srcString (sunit si : Nat) (soperand : Option Nat) : Option String :=
  if sunit = UNIT_NONE then some "#0"
  else if sunit = UNIT_STACK_PUSH_POP then some "POP "
  else if sunit = UNIT_STACK_INDEX then some ("S" ++ hexPad 6 si)
  else if sunit = UNIT_REGISTER then some ("R" ++ hexPad 2 si)
  else if sunit = UNIT_ALU_RIGHT then some "ALU:RIGHT "
  else if sunit = UNIT_ALU_LEFT then some "ALU:LEFT"
  else if sunit = UNIT_ALU_OPERATOR then some "ALU:OPERATOR"
  else if sunit = UNIT_ALU_RESULT then some "ALU:RESULT"
  else if sunit = UNIT_MEMORY_IMMEDIATE then some ("*(" ++ hexPad 6 si ++ ")")
  else if sunit = UNIT_MEMORY_OPERAND then
    soperand.map (fun x => "*(" ++ hexPad 8 x ++ ")")
  else if sunit = UNIT_PC then some "PC"
  else if sunit = UNIT_ABS_IMMEDIATE then some ("#" ++ hexPad 6 si)
  else if sunit = UNIT_ABS_OPERAND then
    soperand.map (fun x => "#" ++ hexPad 8 x)
  else some ""

/-- The disassembly string of `Instr.asm`: `"NOP"` when `dunit` is
`UNIT_NONE` (returned before the source chain runs), otherwise the
destination clause followed by the source clause. -/
def Instr.asm (i : Instr) : Option String :=
  if i.dunit = UNIT_NONE then some "NOP"
  else
    (destString i.dunit i.di i.doperand).bind
      (fun d => (srcString i.sunit i.si i.soperand).map (fun s => d ++ s))

/-- Well-formed instructions in the sense of the data model: 12-bit indices,
unit codes among the 13 defined values, and an operand present exactly when
the corresponding unit is `UNIT_MEMORY_OPERAND` or `UNIT_ABS_OPERAND`. -/
def WellFormed (i : Instr) : Prop :=
  i.sunit ≤ 12 ∧ i.dunit ≤ 12 ∧ i.si < 4096 ∧ i.di < 4096 ∧
    (i.soperand.isSome ↔ (i.sunit = UNIT_MEMORY_OPERAND ∨
      i.sunit = UNIT_ABS_OPERAND)) ∧
    (i.doperand.isSome ↔ (i.dunit = UNIT_MEMORY_OPERAND ∨
      i.dunit = UNIT_ABS_OPERAND))

instance (i : Instr) : Decidable (WellFormed i) := by
  unfold WellFormed; infer_instance

/-- Disjoint bitwise or is addition: when `a` fits below bit `k`, or-ing in a
value shifted up by `k` is the same as adding it. -/
theorem lor_shiftLeft_eq_add (a b k : Nat) (h : a < 2 ^ k) :
    a ||| b <<< k = a + b * 2 ^ k := by
  rw [Nat.shiftLeft_eq, Nat.lor_comm, Nat.mul_comm b (2 ^ k),
    ← Nat.mul_add_lt_is_or h, Nat.add_comm]

/-- With in-range unit codes and a 12-bit source index, the or-chain of
`Instr.__init__` is a sum of disjoint shifted fields. -/
theorem op_eq_add (i : Instr) (hsu : i.sunit < 16) (hsi : i.si < 4096)
    (hdu : i.dunit < 16) :
    i.op = i.sunit + i.si * 16 + i.dunit * 65536 + i.di * 1048576 := by
  have p4 : (2 : Nat) ^ 4 = 16 := by norm_num
  have p16 : (2 : Nat) ^ 16 = 65536 := by norm_num
  have p20 : (2 : Nat) ^ 20 = 1048576 := by norm_num
  have h1 := lor_shiftLeft_eq_add i.sunit i.si 4 (by omega)
  rw [p4] at h1
  have h2 := lor_shiftLeft_eq_add (i.sunit ||| i.si <<< 4) i.dunit 16
    (by rw [p16, h1]; omega)
  rw [p16] at h2
  have h3 := lor_shiftLeft_eq_add (i.sunit ||| i.si <<< 4 ||| i.dunit <<< 16)
    i.di 20 (by rw [p20, h2, h1]; omega)
  rw [p20] at h3
  show i.sunit ||| i.si <<< 4 ||| i.dunit <<< 16 ||| i.di <<< 20 = _
  rw [h3, h2, h1]

/-- Field extraction from the primary word: each of the four fields of the
layout is recovered by division and remainder at its bit offset. -/
theorem op_fields (i : Instr) (hsu : i.sunit < 16) (hsi : i.si < 4096)
    (hdu : i.dunit < 16) :
    i.op % 16 = i.sunit ∧ i.op / 16 % 4096 = i.si ∧
      i.op / 65536 % 16 = i.dunit ∧ i.op / 1048576 = i.di := by
  rw [op_eq_add i hsu hsi hdu]
  omega

/-- Whatever the operand situation, a successful encoding starts with the
primary word. -/
theorem hexWords_head (i : Instr) (ws : List Nat) (h : i.hexWords = some ws) :
    ws.head? = some i.op := by
  unfold Instr.hexWords at h
  rcases hso : (if i.sunit = UNIT_MEMORY_OPERAND ∨ i.sunit = UNIT_ABS_OPERAND
      then i.soperand.map (fun x => [x]) else some []) with _ | sExt
  · rw [hso] at h; simp at h
  · rcases hdo : (if i.dunit = UNIT_MEMORY_OPERAND ∨ i.dunit = UNIT_ABS_OPERAND
        then i.doperand.map (fun x => [x]) else some []) with _ | dExt
    · rw [hso, hdo] at h; simp at h
    · rw [hso, hdo] at h
      simp at h
      rw [← h]
      rfl

/-- Under the operand-presence invariant, the encoding is the primary word
followed by the source operand (when present) and then the destination
operand (when present). -/
theorem hexWords_of_operands (i : Instr)
    (hs : i.soperand.isSome ↔ (i.sunit = UNIT_MEMORY_OPERAND ∨
      i.sunit = UNIT_ABS_OPERAND))
    (hd : i.doperand.isSome ↔ (i.dunit = UNIT_MEMORY_OPERAND ∨
      i.dunit = UNIT_ABS_OPERAND)) :
    i.hexWords = some (i.op :: (i.soperand.toList ++ i.doperand.toList)) := by
  rcases hso : i.soperand with _ | x <;> rcases hdo : i.doperand with _ | y <;>
    simp [hso, hdo] at hs hd <;>
    simp [Instr.hexWords, hso, hdo, hs, hd]

/-- Two options whose presence is characterized by equivalent propositions
are both present or both absent. -/
theorem isSome_congr {o1 o2 : Option Nat} {p q : Prop}
    (h1 : o1.isSome ↔ p) (h2 : o2.isSome ↔ q) (hpq : p ↔ q) :
    o1.isSome = o2.isSome := by
  rcases o1 <;> rcases o2 <;> simp_all

/-- C1: the encoder is injective on well-formed Instructions: equal word
sequences force equal source unit, source index, dest unit, dest index and
operands, so decoding the output of `Instr.hex` reconstructs the original
Instruction. -/
theorem C1_encode_injective (i1 i2 : Instr) (h1 : WellFormed i1)
    (h2 : WellFormed i2) (henc : i1.hexWords = i2.hexWords) : i1 = i2 := by
  obtain ⟨hsu1, hdu1, hsi1, hdi1, hso1, hdo1⟩ := h1
  obtain ⟨hsu2, hdu2, hsi2, hdi2, hso2, hdo2⟩ := h2
  rw [hexWords_of_operands i1 hso1 hdo1,
    hexWords_of_operands i2 hso2 hdo2] at henc
  have hcons := Option.some.inj henc
  injection hcons with hop hrest
  have g1 := op_fields i1 (by omega) hsi1 (by omega)
  have g2 := op_fields i2 (by omega) hsi2 (by omega)
  have hsu : i1.sunit = i2.sunit := by rw [← g1.1, ← g2.1, hop]
  have hsi : i1.si = i2.si := by rw [← g1.2.1, ← g2.2.1, hop]
  have hdu : i1.dunit = i2.dunit := by rw [← g1.2.2.1, ← g2.2.2.1, hop]
  have hdi : i1.di = i2.di := by rw [← g1.2.2.2, ← g2.2.2.2, hop]
  have hsome_s := isSome_congr hso1 hso2 (by rw [hsu])
  have hsome_d := isSome_congr hdo1 hdo2 (by rw [hdu])
  have hsop : i1.soperand = i2.soperand := by
    rcases o1 : i1.soperand with _ | x <;> rcases o2 : i2.soperand with _ | y <;>
      rw [o1, o2] at hsome_s hrest <;> simp_all
  have hdop : i1.doperand = i2.doperand := by
    rcases o1 : i1.soperand with _ | x <;> rcases o2 : i2.soperand with _ | y <;>
      rw [o1, o2] at hsome_s hrest <;>
        rcases p1 : i1.doperand with _ | a <;>
          rcases p2 : i2.doperand with _ | b <;>
            rw [p1, p2] at hsome_d hrest <;> simp_all
  cases i1
  cases i2
  simp only [Instr.mk.injEq]
  exact ⟨hsu, hsi, hdu, hdi, hsop, hdop⟩

/-- Witness for C1 at a pair of well-formed operand-carrying Instructions
with equal encodings. -/
theorem C1_encode_injective_witness :
    (⟨9, 7, 12, 8, some 0x1234, some 0x543⟩ : Instr) =
      ⟨9, 7, 12, 8, some 0x1234, some 0x543⟩ :=
  C1_encode_injective ⟨9, 7, 12, 8, some 0x1234, some 0x543⟩
    ⟨9, 7, 12, 8, some 0x1234, some 0x543⟩ (by decide) (by decide) (by decide)

/-- C2: for every Instruction whose indices fit in 12 bits and whose unit
codes are in 0..12, the primary (first) word of the encoding carries
`sourceUnit` in bits 0-3, `sourceIndex` in bits 4-15, `destUnit` in bits
16-19 and `destIndex` in bits 20-31. -/
theorem C2_primary_word_layout (i : Instr) (ws : List Nat)
    (hsu : i.sunit ≤ 12) (hdu : i.dunit ≤ 12)
    (hsi : i.si < 2 ^ 12) (hdi : i.di < 2 ^ 12)
    (hw : i.hexWords = some ws) :
    ws.head? = some i.op ∧
      i.op % 2 ^ 4 = i.sunit ∧ i.op / 2 ^ 4 % 2 ^ 12 = i.si ∧
      i.op / 2 ^ 16 % 2 ^ 4 = i.dunit ∧ i.op / 2 ^ 20 = i.di := by
  norm_num at hsi hdi ⊢
  have hf := op_fields i (by omega) hsi (by omega)
  exact ⟨hexWords_head i ws hw, hf.1, hf.2.1, hf.2.2.1, hf.2.2.2⟩

/-- Witness for C2 at `Construct(AbsoluteImmediate, 0x666, Register, 0)`. -/
theorem C2_primary_word_layout_witness :
    ([0x3666b] : List Nat).head? =
      some (Instr.op ⟨11, 0x666, 3, 0, none, none⟩) :=
  (C2_primary_word_layout ⟨11, 0x666, 3, 0, none, none⟩ [0x3666b]
    (by decide) (by decide) (by decide) (by decide) (by decide)).1

/-- C3: under the operand-presence invariant, the encoding is the primary
word, then the source operand verbatim exactly when `sourceUnit` carries an
operand, then the destination operand verbatim exactly when `destUnit` does;
its length is 1, 2 or 3, with 1 exactly when neither side carries an operand
and 2 exactly when one side does. -/
theorem C3_extension_words (i : Instr)
    (hs : i.soperand.isSome ↔ (i.sunit = UNIT_MEMORY_OPERAND ∨
      i.sunit = UNIT_ABS_OPERAND))
    (hd : i.doperand.isSome ↔ (i.dunit = UNIT_MEMORY_OPERAND ∨
      i.dunit = UNIT_ABS_OPERAND)) :
    i.hexWords = some (i.op :: (i.soperand.toList ++ i.doperand.toList)) ∧
      1 ≤ (i.op :: (i.soperand.toList ++ i.doperand.toList)).length ∧
      (i.op :: (i.soperand.toList ++ i.doperand.toList)).length ≤ 3 ∧
      ((i.op :: (i.soperand.toList ++ i.doperand.toList)).length = 1 ↔
        ¬(i.sunit = UNIT_MEMORY_OPERAND ∨ i.sunit = UNIT_ABS_OPERAND) ∧
        ¬(i.dunit = UNIT_MEMORY_OPERAND ∨ i.dunit = UNIT_ABS_OPERAND)) ∧
      ((i.op :: (i.soperand.toList ++ i.doperand.toList)).length = 2 ↔
        (((i.sunit = UNIT_MEMORY_OPERAND ∨ i.sunit = UNIT_ABS_OPERAND) ∧
          ¬(i.dunit = UNIT_MEMORY_OPERAND ∨ i.dunit = UNIT_ABS_OPERAND)) ∨
         (¬(i.sunit = UNIT_MEMORY_OPERAND ∨ i.sunit = UNIT_ABS_OPERAND) ∧
          (i.dunit = UNIT_MEMORY_OPERAND ∨ i.dunit = UNIT_ABS_OPERAND)))) := by
  refine ⟨hexWords_of_operands i hs hd, ?_, ?_, ?_, ?_⟩ <;>
    rcases hso : i.soperand with _ | x <;> rcases hdo : i.doperand with _ | y <;>
      simp [hso, hdo] at hs hd ⊢ <;> tauto

/-- Witness for C3 at the two-word example
`Construct(Register, 1, MemoryOperand, 0, destOperand=0x543)`. -/
theorem C3_extension_words_witness :
    Instr.hexWords ⟨3, 1, 9, 0, none, some 0x543⟩ =
      some [Instr.op ⟨3, 1, 9, 0, none, some 0x543⟩, 0x543] :=
  (C3_extension_words ⟨3, 1, 9, 0, none, some 0x543⟩
    (by decide) (by decide)).1

/-- C4 counterexample: construction does not mask indices to 12 bits.  With
`sourceIndex = 4096` the primary word differs from the one built from
`4096 % 2^12`, and the destUnit field (bits 16-19) reads 1 although
`destUnit = 0` was passed. -/
theorem C4_counterexample :
    Instr.op ⟨0, 4096, 0, 0, none, none⟩ ≠
      Instr.op ⟨0, 4096 % 2 ^ 12, 0, 0, none, none⟩ ∧
    Instr.op ⟨0, 4096, 0, 0, none, none⟩ / 2 ^ 16 % 2 ^ 4 = 1 := by decide

/-- C4 amended: `Instr.__init__` applies no 12-bit mask; the source index is
shifted into place in full, so the primary word is `si * 2^4` when all other
fields are zero, and bits 12 and up of the source index land in the
destUnit-and-above bit positions instead of being discarded. -/
theorem C4_amended_no_masking (si : Nat) :
    Instr.op ⟨0, si, 0, 0, none, none⟩ = si * 2 ^ 4 ∧
    Instr.op ⟨0, si, 0, 0, none, none⟩ / 2 ^ 16 % 2 ^ 4 =
      si / 2 ^ 12 % 2 ^ 4 := by
  have hop : Instr.op ⟨0, si, 0, 0, none, none⟩ = si <<< 4 := by
    show 0 ||| si <<< 4 ||| 0 <<< 16 ||| 0 <<< 20 = si <<< 4
    simp
  rw [hop, Nat.shiftLeft_eq]
  norm_num
  omega

/-- C6 counterexample: `Construct(AbsoluteImmediate, 0x666, Register, 0)`
does not encode to the single word `0x00006663`; its word is `0x0003666b`. -/
theorem C6_counterexample :
    Instr.hexWords ⟨11, 0x666, 3, 0, none, none⟩ ≠ some [0x6663] ∧
    Instr.hexWords ⟨11, 0x666, 3, 0, none, none⟩ = some [0x3666b] := by
  decide

/-- C6 amended: `Construct(AbsoluteImmediate, 0x666, Register, 0)` encodes
to the single primary word `0x0003666b` and disassembles to exactly
`"R00 := #000666"`. -/
theorem C6_amended_example :
    Instr.hexWords ⟨11, 0x666, 3, 0, none, none⟩ = some [0x3666b] ∧
    Instr.hex ⟨11, 0x666, 3, 0, none, none⟩ = some "0003666b" ∧
    Instr.asm ⟨11, 0x666, 3, 0, none, none⟩ = some "R00 := #000666" := by
  decide

/-- C5: two Instructions that differ only in the source index (both values
12-bit) have identical primary-word bits outside bits 4-15, and two that
differ only in the destination index (both 12-bit) have identical bits
outside bits 20-31: each index touches only its own bit range. -/
theorem C5_bitfield_isolation (su du si1 si2 di1 di2 j : Nat)
    (sop dop : Option Nat)
    (hs1 : si1 < 2 ^ 12) (hs2 : si2 < 2 ^ 12)
    (hd1 : di1 < 2 ^ 12) (hd2 : di2 < 2 ^ 12) :
    ((j < 4 ∨ 16 ≤ j) →
      (Instr.op ⟨su, si1, du, di1, sop, dop⟩).testBit j =
        (Instr.op ⟨su, si2, du, di1, sop, dop⟩).testBit j) ∧
    (j < 20 →
      (Instr.op ⟨su, si1, du, di1, sop, dop⟩).testBit j =
        (Instr.op ⟨su, si1, du, di2, sop, dop⟩).testBit j) := by
  norm_num at hs1 hs2 hd1 hd2
  constructor
  · intro hj
    simp only [Instr.op, Nat.testBit_lor, Nat.testBit_shiftLeft]
    rcases hj with hj | hj
    · have h4 : ¬(4 ≤ j) := by omega
      simp [h4]
    · have e1 : si1.testBit (j - 4) = false :=
        Nat.testBit_eq_false_of_lt (lt_of_lt_of_le hs1
          (by calc (4096 : Nat) = 2 ^ 12 := by norm_num
                _ ≤ 2 ^ (j - 4) := Nat.pow_le_pow_right (by norm_num) (by omega)))
      have e2 : si2.testBit (j - 4) = false :=
        Nat.testBit_eq_false_of_lt (lt_of_lt_of_le hs2
          (by calc (4096 : Nat) = 2 ^ 12 := by norm_num
                _ ≤ 2 ^ (j - 4) := Nat.pow_le_pow_right (by norm_num) (by omega)))
      simp [e1, e2]
  · intro hj
    simp only [Instr.op, Nat.testBit_lor, Nat.testBit_shiftLeft]
    have h20 : ¬(20 ≤ j) := by omega
    simp [h20]

/-- Witness for C5: bit 16 of the primary word is unchanged when the source
index moves from 0 to 4095. -/
theorem C5_bitfield_isolation_witness :
    (Instr.op ⟨3, 0, 5, 0, none, none⟩).testBit 16 =
      (Instr.op ⟨3, 4095, 5, 0, none, none⟩).testBit 16 :=
  (C5_bitfield_isolation 3 5 0 4095 0 4095 16 none none
    (by decide) (by decide) (by decide) (by decide)).1 (Or.inr (by decide))

/-- C7 counterexample: with `destUnit = ProgramCounter` and
`sourceUnit = Register`, the disassembly is `"JMP R00"`: the rendering of
the source (`"R00"`) does follow `"JMP "`. -/
theorem C7_counterexample :
    Instr.asm ⟨3, 0, 10, 0, none, none⟩ = some ("JMP " ++ "R00") ∧
    srcString 3 0 none = some "R00" ∧
    ("JMP " ++ "R00" : String) ≠ "JMP" := by decide

/-- C7 amended: `ProgramCounter` as destination renders as `"JMP "` and the
source clause is still appended after it, exactly as for any other
destination. -/
theorem C7_amended_jmp_keeps_source (su si di : Nat) (sop dop : Option Nat) :
    Instr.asm ⟨su, si, UNIT_PC, di, sop, dop⟩ =
      (srcString su si sop).map (fun s => "JMP " ++ s) := rfl

/-- C8: with `destUnit = AluResult` the destination chain of `asm` falls
through, so the output has no destination clause and no `" := "` separator:
it is exactly the rendering of the source. -/
theorem C8_alu_result_dest_renders_nothing (su si di : Nat)
    (sop dop : Option Nat) :
    Instr.asm ⟨su, si, UNIT_ALU_RESULT, di, sop, dop⟩ =
      srcString su si sop := by
  have h : Instr.asm ⟨su, si, UNIT_ALU_RESULT, di, sop, dop⟩ =
      (srcString su si sop).map (fun s => "" ++ s) := rfl
  rw [h]
  rcases srcString su si sop with _ | s
  · rfl
  · rcases s with ⟨data⟩
    rfl

/-- C9 counterexample: unit code 13 is outside the 13 defined values yet
construction succeeds; the instruction encodes to word `0xd000d` and even
renders (as the empty string). -/
theorem C9_counterexample :
    Instr.op ⟨13, 0, 13, 0, none, none⟩ = 0xd000d ∧
    Instr.hexWords ⟨13, 0, 13, 0, none, none⟩ = some [0xd000d] ∧
    Instr.asm ⟨13, 0, 13, 0, none, none⟩ = some "" := by decide

/-- C9 amended: construction performs no unit-code validation; any codes at
or above 13 are accepted, encoded verbatim into the primary word, and both
disassembly chains fall through so the instruction renders as the empty
string. -/
theorem C9_amended_no_validation (su si du di : Nat) (sop dop : Option Nat)
    (hsu : 13 ≤ su) (hdu : 13 ≤ du) :
    Instr.asm ⟨su, si, du, di, sop, dop⟩ = some "" ∧
    Instr.hexWords ⟨su, si, du, di, sop, dop⟩ =
      some [Instr.op ⟨su, si, du, di, sop, dop⟩] := by
  have s0 : su ≠ 0 := by omega
  have s1 : su ≠ 1 := by omega
  have s2 : su ≠ 2 := by omega
  have s3 : su ≠ 3 := by omega
  have s4 : su ≠ 4 := by omega
  have s5 : su ≠ 5 := by omega
  have s6 : su ≠ 6 := by omega
  have s7 : su ≠ 7 := by omega
  have s8 : su ≠ 8 := by omega
  have s9 : su ≠ 9 := by omega
  have s10 : su ≠ 10 := by omega
  have s11 : su ≠ 11 := by omega
  have s12 : su ≠ 12 := by omega
  have d0 : du ≠ 0 := by omega
  have d1 : du ≠ 1 := by omega
  have d2 : du ≠ 2 := by omega
  have d3 : du ≠ 3 := by omega
  have d4 : du ≠ 4 := by omega
  have d5 : du ≠ 5 := by omega
  have d6 : du ≠ 6 := by omega
  have d8 : du ≠ 8 := by omega
  have d9 : du ≠ 9 := by omega
  have d10 : du ≠ 10 := by omega
  have d12 : du ≠ 12 := by omega
  constructor
  · simp [Instr.asm, destString, srcString, UNIT_NONE, UNIT_STACK_PUSH_POP,
      UNIT_STACK_INDEX, UNIT_REGISTER, UNIT_ALU_LEFT, UNIT_ALU_RIGHT,
      UNIT_ALU_OPERATOR, UNIT_ALU_RESULT, UNIT_MEMORY_IMMEDIATE,
      UNIT_MEMORY_OPERAND, UNIT_PC, UNIT_ABS_IMMEDIATE, UNIT_ABS_OPERAND,
      s0, s1, s2, s3, s4, s5, s6, s7, s8, s9, s10, s11, s12,
      d0, d1, d2, d3, d4, d5, d6, d8, d9, d10, d12]
  · simp [Instr.hexWords, UNIT_MEMORY_OPERAND, UNIT_ABS_OPERAND,
      s9, s12, d9, d12]

/-- Witness for C9 amended at unit codes 13/13. -/
theorem C9_amended_no_validation_witness :
    Instr.asm ⟨13, 5, 13, 6, none, none⟩ = some "" ∧
    Instr.hexWords ⟨13, 5, 13, 6, none, none⟩ =
      some [Instr.op ⟨13, 5, 13, 6, none, none⟩] :=
  C9_amended_no_validation 13 5 13 6 none none (by decide) (by decide)

/-- C10: the primary word depends only on the units and indices; two
Instructions built with the same units and indices but different operands
have equal primary words, and the first word of each successful encoding is
that primary word. -/
theorem C10_primary_word_ignores_operands (su si du di : Nat)
    (sop1 dop1 sop2 dop2 : Option Nat) (ws1 ws2 : List Nat)
    (h1 : Instr.hexWords ⟨su, si, du, di, sop1, dop1⟩ = some ws1)
    (h2 : Instr.hexWords ⟨su, si, du, di, sop2, dop2⟩ = some ws2) :
    Instr.op ⟨su, si, du, di, sop1, dop1⟩ =
      Instr.op ⟨su, si, du, di, sop2, dop2⟩ ∧
    ws1.head? = some (Instr.op ⟨su, si, du, di, sop1, dop1⟩) ∧
    ws1.head? = ws2.head? := by
  have g1 := hexWords_head _ ws1 h1
  have g2 := hexWords_head _ ws2 h2
  refine ⟨rfl, g1, ?_⟩
  rw [g1, g2]
  rfl

/-- Witness for C10: same fields, destination operand 1 versus 2. -/
theorem C10_primary_word_ignores_operands_witness :
    Instr.op ⟨3, 0, 9, 0, none, some 1⟩ =
      Instr.op ⟨3, 0, 9, 0, none, some 2⟩ ∧
    ([Instr.op ⟨3, 0, 9, 0, none, some 1⟩, 1] : List Nat).head? =
      some (Instr.op ⟨3, 0, 9, 0, none, some 1⟩) ∧
    ([Instr.op ⟨3, 0, 9, 0, none, some 1⟩, 1] : List Nat).head? =
      ([Instr.op ⟨3, 0, 9, 0, none, some 2⟩, 2] : List Nat).head? :=
  C10_primary_word_ignores_operands 3 0 9 0 none (some 1) none (some 2)
    [Instr.op ⟨3, 0, 9, 0, none, some 1⟩, 1]
    [Instr.op ⟨3, 0, 9, 0, none, some 2⟩, 2] (by decide) (by decide)

end Assembler
